import Mathlib

/-!
Verification of the checkbox (multi-select) prompt engine of
`questionary/prompts/checkbox.py` against its natural-language
specification.  The Python source is shallowly embedded: each key-binding
handler becomes a pure Lean function on an explicit selection state, and
the claims of the specification are settled as theorems about those
functions.  Definitions for `InquirerControl` internals that are declared
in `questionary/prompts/common.py` (not part of the provided sources) are
modelled from the specification and marked as such in their doc comments.
-/

namespace Questionary

/-- Styled text, as produced by prompt_toolkit `FormattedText`: a list of
(style-class, text) tokens. -/
abbrev StyledText := List (String × String)

/-- A choice title: either a plain string or a styled-span sequence
(the `isinstance(title, list)` case of `get_prompt_tokens`). -/
inductive Title where
  | plain (s : String)
  | spans (ts : StyledText)
deriving DecidableEq

/-- One entry of the choice list: either a `Separator` (never selectable)
or a `Choice` with a title, a value and a disabled flag.  This embeds the
Choice/Separator data model used by `checkbox.py`. -/
inductive Entry (α : Type) where
  | separator (line : String)
  | choice (title : Title) (value : α) (disabled : Bool)
deriving DecidableEq

/-- An entry is selectable when it is neither a Separator nor disabled. -/
def Entry.isSelectable {α : Type} : Entry α → Bool
  | Entry.separator _ => false
  | Entry.choice _ _ d => !d

/-- The value carried by an entry, if it is a Choice. -/
def Entry.valueOf? {α : Type} : Entry α → Option α
  | Entry.separator _ => none
  | Entry.choice _ v _ => some v

/-- The title carried by an entry, if it is a Choice. -/
def Entry.titleOf? {α : Type} : Entry α → Option Title
  | Entry.separator _ => none
  | Entry.choice t _ _ => some t

/-- The value of an entry when it is an enabled, non-separator Choice. -/
def Entry.selectableValue? {α : Type} : Entry α → Option α
  | Entry.separator _ => none
  | Entry.choice _ v d => if d then none else some v

/-- The values of all enabled, non-separator choices, in list order. -/
def selectableValues {α : Type} (choices : List (Entry α)) : List α :=
  choices.filterMap Entry.selectableValue?

/-- The possible return values of a user-supplied validator, as seen by
`perform_validation`: the Python singletons `True` and `False`, a string,
or any other value (recorded by its `str()` rendering). -/
inductive Verdict where
  | vtrue
  | vfalse
  | vstr (s : String)
  | vother (s : String)
deriving DecidableEq

/-- Embeds the Python identity test `verdict is True` of
`perform_validation` (line 134). -/
def Verdict.isTrue : Verdict → Bool
  | Verdict.vtrue => true
  | _ => false

/-- Embeds the Python identity test `verdict is False` of
`perform_validation` (line 137). -/
def Verdict.isFalse : Verdict → Bool
  | Verdict.vfalse => true
  | _ => false

/-- The `str()` rendering of a verdict, used for the error text when the
verdict is neither `True` nor `False`. -/
def Verdict.toStr : Verdict → String
  | Verdict.vtrue => "True"
  | Verdict.vfalse => "False"
  | Verdict.vstr s => s
  | Verdict.vother s => s

/-- Modelled from the spec: the constant `INVALID_INPUT` of
`questionary/constants.py` (not among the provided sources), the generic
"invalid input" failure message. -/
def INVALID_INPUT : String := "invalid input"

/-- The error text computed by `perform_validation` for a failing verdict
(lines 137-140): `INVALID_INPUT` for the literal `False`, `str(verdict)`
otherwise. -/
def errorTextFor (v : Verdict) : String :=
  if v.isFalse then INVALID_INPUT else v.toStr

/-- The `FormattedText` wrapper put around an error text (line 142). -/
def formattedError (text : String) : StyledText :=
  [("class:validation-toolbar", text)]

/-- Embeds `perform_validation` (lines 131-148): runs the validator on the
selected values, computes validity by identity with `True`, and stores the
formatted error in `error_message` only when validation failed and a
submission has been attempted; otherwise `error_message` is set to `None`.
Returns the validity flag together with the new `error_message`. -/
def performValidation {α : Type} (validate : List α → Verdict)
    (submissionAttempted : Bool) (selectedValues : List α) :
    Bool × Option StyledText :=
  let verdict := validate selectedValues
  let valid := verdict.isTrue
  (valid,
    if !valid && submissionAttempted then
      some (formattedError (errorTextFor verdict))
    else none)

/-- Embeds the `toggle` key handler (lines 159-165): remove the pointed-at
value from `selected_options` if present (Python `list.remove`, first
occurrence), otherwise append it. -/
def toggle {α : Type} [DecidableEq α] (sel : List α) (v : α) : List α :=
  if v ∈ sel then sel.erase v else sel ++ [v]

/-- Embeds the `invert` key handler (lines 169-178): replace the selection
with the values of all enabled, non-separator choices not currently
selected, in list order. -/
def invert {α : Type} [DecidableEq α] (choices : List (Entry α))
    (sel : List α) : List α :=
  choices.filterMap (fun c =>
    match c with
    | Entry.separator _ => none
    | Entry.choice _ v d => if v ∉ sel ∧ d = false then some v else none)

/-- Embeds the `for c in ic.choices` loop of the `all` key handler
(lines 184-193): walk the choice list, appending each enabled,
non-separator value that is not yet in the accumulated selection and
clearing the `all_selected` flag whenever that happens. -/
def addMissing {α : Type} [DecidableEq α] :
    List (Entry α) → List α → Bool → List α × Bool
  | [], acc, flag => (acc, flag)
  | Entry.separator _ :: cs, acc, flag => addMissing cs acc flag
  | Entry.choice _ v d :: cs, acc, flag =>
    if v ∉ acc ∧ d = false then addMissing cs (acc ++ [v]) false
    else addMissing cs acc flag

/-- Embeds the `all` key handler (lines 182-195): add all missing enabled,
non-separator values; if none were missing, clear the selection. -/
def toggleAllOrNone {α : Type} [DecidableEq α] (choices : List (Entry α))
    (sel : List α) : List α :=
  let p := addMissing choices sel true
  if p.2 then [] else p.1

/-- Every enabled, non-separator choice has its value in `sel`. -/
def allSelected {α : Type} [DecidableEq α] (choices : List (Entry α))
    (sel : List α) : Bool :=
  choices.all (fun c =>
    match c with
    | Entry.separator _ => true
    | Entry.choice _ v d => d || decide (v ∈ sel))

/-- The mutable session state held by the `InquirerControl` instance, as
read and written by the handlers of `checkbox.py`. -/
structure CheckboxState (α : Type) where
  choices : List (Entry α)
  pointedIndex : Nat
  selectedOptions : List α
  errorMessage : Option StyledText
  submissionAttempted : Bool
  isAnswered : Bool

/-- Modelled from the spec: `InquirerControl.get_selected_values` of
`questionary/prompts/common.py` (not among the provided sources) returns
the Choice objects of the currently selected values; per the data model,
`selectedValues` is the ordered sequence of selected values and every
member corresponds to a Choice in `choices`, so the Choice objects are
recovered in selection order. -/
def getSelectedChoicesOf {α : Type} [DecidableEq α]
    (choices : List (Entry α)) (selected : List α) : List (Entry α) :=
  selected.filterMap (fun v =>
    choices.find? (fun c => decide (c.valueOf? = some v)))

/-- The selected Choice objects of a state, in selection order. -/
def getSelectedChoices {α : Type} [DecidableEq α] (s : CheckboxState α) :
    List (Entry α) :=
  getSelectedChoicesOf s.choices s.selectedOptions

/-- Embeds the closure `get_selected_values` (lines 128-129): the plain
values of the selected Choice objects. -/
def getSelectedValues {α : Type} [DecidableEq α] (s : CheckboxState α) :
    List α :=
  (getSelectedChoices s).filterMap Entry.valueOf?

/-- Well-formedness invariant of the data model: every selected value
corresponds to a Choice currently in the choice list. -/
abbrev wellFormed {α : Type} (s : CheckboxState α) : Prop :=
  ∀ v ∈ s.selectedOptions, ∃ c ∈ s.choices, c.valueOf? = some v

/-- Embeds the `set_answer` key handler (lines 213-221): mark a submission
attempt, validate the plain selected values, and on success mark the
question answered and exit with those values as the result; on failure the
session stays active (no result) with the failure stored as the error
message. -/
def setAnswer {α : Type} [DecidableEq α] (validate : List α → Verdict)
    (s : CheckboxState α) : CheckboxState α × Option (List α) :=
  let selectedValues := getSelectedValues s
  let s1 := { s with submissionAttempted := true }
  let pv := performValidation validate s1.submissionAttempted selectedValues
  let s2 := { s1 with errorMessage := pv.2 }
  if pv.1 then ({ s2 with isAnswered := true }, some selectedValues)
  else (s2, none)

/-- Modelled from the spec: `InquirerControl.select_next` of
`questionary/prompts/common.py` (not among the provided sources) advances
the cursor index circularly one step forward, wrapping at the end. -/
def selectNext (n i : Nat) : Nat := (i + 1) % n

/-- Modelled from the spec: `InquirerControl.select_previous` of
`questionary/prompts/common.py` (not among the provided sources) moves the
cursor index circularly one step backward, wrapping at the start. -/
def selectPrevious (n i : Nat) : Nat := (i + n - 1) % n

/-- Modelled from the spec: `InquirerControl.is_selection_valid` of
`questionary/prompts/common.py` (not among the provided sources) holds
when the pointed-at entry is neither a Separator nor disabled. -/
def isSelectionValid {α : Type} (choices : List (Entry α)) (i : Nat) :
    Bool :=
  match choices[i]? with
  | some c => c.isSelectable
  | none => false

/-- Embeds the `while not ic.is_selection_valid(): step` loop of
`move_cursor_down` / `move_cursor_up` (lines 203-204 and 210-211) with an
explicit fuel bound on the number of loop iterations; `none` means the
loop has not found a selectable entry within `fuel` further steps. -/
def skipToValid {α : Type} (choices : List (Entry α)) (step : Nat → Nat) :
    Nat → Nat → Option Nat
  | i, 0 => if isSelectionValid choices i then some i else none
  | i, fuel + 1 =>
    if isSelectionValid choices i then some i
    else skipToValid choices step (step i) fuel

/-- Embeds `move_cursor_down` (lines 199-204): one forward step, then the
skip loop. -/
def moveCursorDownIdx {α : Type} (choices : List (Entry α))
    (i fuel : Nat) : Option Nat :=
  skipToValid choices (selectNext choices.length)
    (selectNext choices.length i) fuel

/-- Embeds `move_cursor_up` (lines 206-211): one backward step, then the
skip loop. -/
def moveCursorUpIdx {α : Type} (choices : List (Entry α))
    (i fuel : Nat) : Option Nat :=
  skipToValid choices (selectPrevious choices.length)
    (selectPrevious choices.length i) fuel

/-- The `move_cursor_down` handler as a state transformer: only the cursor
position changes.  The skip loop is run with fuel equal to the list
length, which suffices whenever a selectable choice exists. -/
def CheckboxState.moveCursorDown {α : Type} (s : CheckboxState α) :
    CheckboxState α :=
  let j := (moveCursorDownIdx s.choices s.pointedIndex s.choices.length).getD s.pointedIndex
  { s with pointedIndex := j }

/-- The `move_cursor_up` handler as a state transformer: only the cursor
position changes. -/
def CheckboxState.moveCursorUp {α : Type} (s : CheckboxState α) :
    CheckboxState α :=
  let j := (moveCursorUpIdx s.choices s.pointedIndex s.choices.length).getD s.pointedIndex
  { s with pointedIndex := j }

/-- The two leading tokens of every prompt rendering (lines 89-90). -/
def baseTokens (qmark message : String) : StyledText :=
  [("class:qmark", qmark), ("class:question", " " ++ message ++ " ")]

/-- The answer text rendered for a single selected choice (lines 97-111):
a styled-span title is joined without brackets, a plain title is wrapped
in brackets. -/
def singleAnswerText : Title → String
  | Title.spans ts => String.join (ts.map (fun t => t.2))
  | Title.plain t => "[" ++ t ++ "]"

/-- Embeds `get_prompt_tokens` (lines 86-126).  `none` marks the runs on
which the Python code would raise (indexing `get_selected_values()[0]`
when no selected choice can be recovered), which cannot happen for
well-formed states. -/
def getPromptTokens {α : Type} [DecidableEq α] (qmark message : String)
    (s : CheckboxState α) : Option StyledText :=
  if s.isAnswered then
    let nbrSelected := s.selectedOptions.length
    if nbrSelected = 0 then
      some (baseTokens qmark message ++ [("class:answer", "done")])
    else if nbrSelected = 1 then
      match (getSelectedChoices s).head? with
      | some c =>
        match c.titleOf? with
        | some t =>
          some (baseTokens qmark message ++
            [("class:answer", singleAnswerText t)])
        | none => none
      | none => none
    else
      some (baseTokens qmark message ++
        [("class:answer",
          "done (" ++ toString nbrSelected ++ " selections)")])
  else
    some (baseTokens qmark message ++
      [("class:instruction",
        "(Use arrow keys to move, <space> to select, " ++
        "<a> to toggle, <i> to invert)")])

/-- C8: the validator adapter maps the user validator's verdict as
follows: a return of True passes and clears the error; a return of False
fails with the generic "invalid input" message; a string return fails with
that string as the error message. -/
theorem validator_adapter_contract {α : Type} (validate : List α → Verdict)
    (sa : Bool) (vals : List α) :
    (validate vals = Verdict.vtrue →
      performValidation validate sa vals = (true, none)) ∧
    (validate vals = Verdict.vfalse →
      (performValidation validate sa vals).1 = false ∧
      (performValidation validate true vals).2 =
        some (formattedError INVALID_INPUT)) ∧
    (∀ t, validate vals = Verdict.vstr t →
      (performValidation validate sa vals).1 = false ∧
      (performValidation validate true vals).2 =
        some (formattedError t)) := by
  refine ⟨fun h => ?_, fun h => ?_, fun t h => ?_⟩ <;>
    simp [performValidation, h, Verdict.isTrue, Verdict.isFalse,
      errorTextFor, Verdict.toStr]

/-- Witness for C8 at concrete inputs. -/
theorem validator_adapter_contract_witness :
    performValidation (fun _ => Verdict.vtrue) false ([] : List Nat) =
      (true, none) ∧
    (performValidation (fun _ => Verdict.vfalse) true ([] : List Nat)).2 =
      some (formattedError INVALID_INPUT) ∧
    (performValidation (fun _ => Verdict.vstr "too few") true
      ([] : List Nat)).2 = some (formattedError "too few") :=
  ⟨(validator_adapter_contract (fun _ => Verdict.vtrue) false []).1 rfl,
   ((validator_adapter_contract (fun _ => Verdict.vfalse) true []).2.1
      rfl).2,
   ((validator_adapter_contract (fun _ => Verdict.vstr "too few") true
      []).2.2 "too few" rfl).2⟩

/-- C9: validity is decided by identity with the boolean True, so every
verdict other than the literal True — including truthy non-boolean values
such as the integer 1 — is a failure, with str(verdict) as the error text
for any value other than the literal False. -/
theorem verdict_identity_semantics {α : Type} (validate : List α → Verdict)
    (vals : List α) (h : validate vals ≠ Verdict.vtrue) :
    (performValidation validate true vals).1 = false ∧
    (validate vals ≠ Verdict.vfalse →
      (performValidation validate true vals).2 =
        some (formattedError ((validate vals).toStr))) := by
  cases hv : validate vals <;>
    simp_all [performValidation, Verdict.isTrue, Verdict.isFalse,
      errorTextFor]

/-- Witness for C9: the truthy non-boolean value 1 (str rendering "1") is
treated as a failure with "1" as the error text. -/
theorem verdict_identity_semantics_witness :
    (performValidation (fun _ => Verdict.vother "1") true
      ([] : List Nat)).1 = false ∧
    (performValidation (fun _ => Verdict.vother "1") true
      ([] : List Nat)).2 = some (formattedError "1") :=
  ⟨(verdict_identity_semantics (fun _ => Verdict.vother "1") []
      (by decide)).1,
   (verdict_identity_semantics (fun _ => Verdict.vother "1") []
      (by decide)).2 (by decide)⟩

/-- C4 counterexample: with a failing verdict but submissionAttempted
still false, the computed error text is NOT stored — error_message is set
to None — so the storage is not unconditional. -/
theorem error_storage_counterexample :
    (performValidation (fun _ => Verdict.vfalse) false ([] : List Nat)).1 =
      false ∧
    (performValidation (fun _ => Verdict.vfalse) false ([] : List Nat)).2 ≠
      some (formattedError (errorTextFor Verdict.vfalse)) := by
  decide

/-- C4 amended: the computed error text is stored in errorMessage only
when submissionAttempted is true; whenever submissionAttempted is false
errorMessage is set to None, so no error text is visible before the first
submit attempt even if the validator would currently fail, and a passing
validation always clears the error. -/
theorem error_gating {α : Type} (validate : List α → Verdict) (sa : Bool)
    (vals : List α) :
    (sa = false → (performValidation validate sa vals).2 = none) ∧
    ((performValidation validate sa vals).1 = false → sa = true →
      (performValidation validate sa vals).2 =
        some (formattedError (errorTextFor (validate vals)))) ∧
    ((performValidation validate sa vals).1 = true →
      (performValidation validate sa vals).2 = none) := by
  cases sa <;> cases hv : (validate vals).isTrue <;>
    simp_all [performValidation]

/-- Witness for C4 at concrete inputs. -/
theorem error_gating_witness :
    (performValidation (fun _ => Verdict.vfalse) false ([] : List Nat)).2 =
      none ∧
    (performValidation (fun _ => Verdict.vfalse) true ([] : List Nat)).2 =
      some (formattedError (errorTextFor Verdict.vfalse)) :=
  ⟨(error_gating (fun _ => Verdict.vfalse) false []).1 rfl,
   (error_gating (fun _ => Verdict.vfalse) true []).2.1 rfl rfl⟩

/-- C3 counterexample: toggling the value 0 twice on the selection
[0, 1] yields [1, 0] — the same members, but not the exact prior order. -/
theorem toggle_twice_counterexample :
    toggle (toggle [0, 1] 0) 0 ≠ ([0, 1] : List Nat) := by decide

/-- C3 amended: toggling the same value twice restores the exact prior
content and order when the value was not selected; when it was selected,
the result is the prior selection with that value moved to the end — a
permutation of (hence set-equal to) the prior selection. -/
theorem toggle_twice_amended {α : Type} [DecidableEq α] (sel : List α)
    (v : α) (hnd : sel.Nodup) :
    (v ∉ sel → toggle (toggle sel v) v = sel) ∧
    (v ∈ sel → toggle (toggle sel v) v = sel.erase v ++ [v] ∧
      (toggle (toggle sel v) v).Perm sel) := by
  constructor
  · intro hv
    have h1 : toggle sel v = sel ++ [v] := by simp [toggle, hv]
    have h2 : v ∈ sel ++ [v] := by simp
    rw [h1]
    simp [toggle, h2, List.erase_append_right _ hv, List.erase_cons_head]
  · intro hv
    have h1 : toggle sel v = sel.erase v := by simp [toggle, hv]
    have h2 : v ∉ sel.erase v := by
      intro hmem
      rcases (List.Nodup.mem_erase_iff hnd).1 hmem with ⟨hne, _⟩
      exact hne rfl
    have h3 : toggle (toggle sel v) v = sel.erase v ++ [v] := by
      rw [h1]; simp [toggle, h2]
    refine ⟨h3, ?_⟩
    rw [h3]
    exact (List.perm_append_singleton v _).trans
      (List.perm_cons_erase hv).symm

/-- Witness for C3 at concrete inputs. -/
theorem toggle_twice_amended_witness :
    toggle (toggle [0, 1] 2) 2 = ([0, 1] : List Nat) ∧
    (toggle (toggle [0, 1] 0) 0 = ([0, 1] : List Nat).erase 0 ++ [0] ∧
      (toggle (toggle [0, 1] 0) 0).Perm ([0, 1] : List Nat)) :=
  ⟨(toggle_twice_amended [0, 1] 2 (by decide)).1 (by decide),
   (toggle_twice_amended [0, 1] 0 (by decide)).2 (by decide)⟩

/-- The keep function of the invert handler produces a value exactly when
the entry is an enabled, non-separator choice whose value is unselected. -/
theorem invert_keep_eq_some {α : Type} [DecidableEq α] (sel : List α)
    (c : Entry α) (v : α) :
    (match c with
      | Entry.separator _ => none
      | Entry.choice _ w d =>
        if w ∉ sel ∧ d = false then some w else none) = some v ↔
      c.selectableValue? = some v ∧ v ∉ sel := by
  cases c with
  | separator line => simp [Entry.selectableValue?]
  | choice t w d =>
    cases d with
    | false =>
      by_cases hw : w ∈ sel
      · simp [Entry.selectableValue?, hw]
        rintro rfl
        exact hw
      · simp [Entry.selectableValue?, hw]
        rintro rfl
        exact hw
    | true => simp [Entry.selectableValue?]

/-- Membership in the inverted selection: exactly the selectable values
that were not selected. -/
theorem mem_invert {α : Type} [DecidableEq α] (choices : List (Entry α))
    (sel : List α) (v : α) :
    v ∈ invert choices sel ↔
      v ∈ selectableValues choices ∧ v ∉ sel := by
  simp only [invert, selectableValues, List.mem_filterMap,
    invert_keep_eq_some]
  constructor
  · rintro ⟨c, hc, hv, hns⟩
    exact ⟨⟨c, hc, hv⟩, hns⟩
  · rintro ⟨⟨c, hc, hv⟩, hns⟩
    exact ⟨c, hc, hv, hns⟩

/-- C6: for a selection containing only enabled, non-separator values,
applying invert twice yields a selection with the same set of values:
membership after two inversions agrees with membership before. -/
theorem invert_involution_set {α : Type} [DecidableEq α]
    (choices : List (Entry α)) (S : List α)
    (hS : ∀ v ∈ S, v ∈ selectableValues choices) (v : α) :
    v ∈ invert choices (invert choices S) ↔ v ∈ S := by
  rw [mem_invert, mem_invert]
  constructor
  · rintro ⟨hv, hns⟩
    by_contra hvS
    exact hns ⟨hv, hvS⟩
  · intro hvS
    exact ⟨hS v hvS, fun h => h.2 hvS⟩

/-- Witness for C6 at a concrete choice list with a separator and a
disabled choice. -/
theorem invert_involution_set_witness :
    (0 ∈ invert
        [Entry.choice (Title.plain "a") 0 false,
         Entry.separator "--",
         Entry.choice (Title.plain "b") 1 true,
         Entry.choice (Title.plain "c") 2 false]
        (invert
          [Entry.choice (Title.plain "a") 0 false,
           Entry.separator "--",
           Entry.choice (Title.plain "b") 1 true,
           Entry.choice (Title.plain "c") 2 false] [2])) ↔
      (0 : Nat) ∈ [2] :=
  invert_involution_set
    [Entry.choice (Title.plain "a") 0 false,
     Entry.separator "--",
     Entry.choice (Title.plain "b") 1 true,
     Entry.choice (Title.plain "c") 2 false] [2] (by decide) 0

/-- The selectable values of a list starting with a separator. -/
theorem selectableValues_cons_sep {α : Type} (line : String)
    (cs : List (Entry α)) :
    selectableValues (Entry.separator line :: cs) = selectableValues cs :=
  rfl

/-- The selectable values of a list starting with a disabled choice. -/
theorem selectableValues_cons_disabled {α : Type} (t : Title) (w : α)
    (cs : List (Entry α)) :
    selectableValues (Entry.choice t w true :: cs) =
      selectableValues cs := by
  simp [selectableValues, Entry.selectableValue?, List.filterMap_cons]

/-- The selectable values of a list starting with an enabled choice. -/
theorem selectableValues_cons_enabled {α : Type} (t : Title) (w : α)
    (cs : List (Entry α)) :
    selectableValues (Entry.choice t w false :: cs) =
      w :: selectableValues cs := by
  simp [selectableValues, Entry.selectableValue?, List.filterMap_cons]

/-- The all_selected flag computed by the loop of the all handler stays
true exactly when every enabled, non-separator value is already in the
accumulated selection. -/
theorem addMissing_flag {α : Type} [DecidableEq α] (cs : List (Entry α)) :
    ∀ (acc : List α) (flag : Bool),
      (addMissing cs acc flag).2 = (flag && allSelected cs acc) := by
  induction cs with
  | nil => intro acc flag; simp [addMissing, allSelected]
  | cons c cs ih =>
    intro acc flag
    cases c with
    | separator line =>
      simpa [addMissing, allSelected, List.all_cons] using ih acc flag
    | choice t w d =>
      by_cases h : w ∉ acc ∧ d = false
      · have hw : w ∉ acc := h.1
        have hd : d = false := h.2
        subst hd
        simp [addMissing, if_pos h, ih, allSelected, List.all_cons, hw]
      · have hb : (d || decide (w ∈ acc)) = true := by
          rcases Bool.eq_false_or_eq_true d with hd | hd
          · simp [hd]
          · have hw : w ∈ acc := by
              by_contra hw
              exact h ⟨hw, hd⟩
            simp [hw]
        simp [addMissing, if_neg h, ih, allSelected, List.all_cons, hb]

/-- The selection computed by the loop of the all handler: the
accumulated selection followed by the missing selectable values in list
order, provided the selectable values carry no duplicates. -/
theorem addMissing_result {α : Type} [DecidableEq α] (cs : List (Entry α)) :
    ∀ (acc : List α) (flag : Bool), (selectableValues cs).Nodup →
      (addMissing cs acc flag).1 =
        acc ++ (selectableValues cs).filter (fun v => v ∉ acc) := by
  induction cs with
  | nil => intro acc flag _; simp [addMissing, selectableValues]
  | cons c cs ih =>
    intro acc flag hnd
    cases c with
    | separator line =>
      rw [selectableValues_cons_sep] at hnd ⊢
      simpa [addMissing] using ih acc flag hnd
    | choice t w d =>
      cases d with
      | true =>
        rw [selectableValues_cons_disabled] at hnd ⊢
        have hcond : ¬(w ∉ acc ∧ true = false) := by simp
        simpa [addMissing, if_neg hcond] using ih acc flag hnd
      | false =>
        rw [selectableValues_cons_enabled] at hnd ⊢
        have hwcs : w ∉ selectableValues cs := (List.nodup_cons.1 hnd).1
        have hndcs : (selectableValues cs).Nodup := (List.nodup_cons.1 hnd).2
        by_cases hw : w ∈ acc
        · have hcond : ¬(w ∉ acc ∧ false = false) := by simp [hw]
          rw [addMissing, if_neg hcond, ih acc flag hndcs]
          simp [List.filter_cons, hw]
        · have hcond : (w ∉ acc ∧ false = false) := by simp [hw]
          rw [addMissing, if_pos hcond, ih (acc ++ [w]) false hndcs]
          have hfc : (selectableValues cs).filter
              (fun v => v ∉ acc ++ [w]) =
              (selectableValues cs).filter (fun v => v ∉ acc) := by
            apply List.filter_congr
            intro x hx
            have hxw : x ≠ w := fun hxw => hwcs (hxw ▸ hx)
            simp [List.mem_append, hxw]
          rw [hfc]
          simp [List.filter_cons, hw, List.append_assoc]

/-- The all_selected condition holds exactly when every enabled,
non-separator value is selected. -/
theorem allSelected_iff {α : Type} [DecidableEq α]
    (choices : List (Entry α)) (sel : List α) :
    allSelected choices sel = true ↔
      ∀ v ∈ selectableValues choices, v ∈ sel := by
  rw [allSelected, List.all_eq_true]
  simp only [selectableValues, List.mem_filterMap]
  constructor
  · rintro h v ⟨c, hc, hv⟩
    have hp := h c hc
    cases c with
    | separator line => simp [Entry.selectableValue?] at hv
    | choice t w d =>
      cases d with
      | true => simp [Entry.selectableValue?] at hv
      | false =>
        simp [Entry.selectableValue?] at hv
        subst hv
        simpa using hp
  · intro h c hc
    cases c with
    | separator line => simp
    | choice t w d =>
      cases d with
      | true => simp
      | false =>
        simp only [Bool.false_or, decide_eq_true_eq]
        exact h w ⟨Entry.choice t w false, hc, by
          simp [Entry.selectableValue?]⟩

/-- C2: toggleAllOrNone clears the selection to empty exactly when every
enabled, non-separator choice is already selected; otherwise it appends
exactly the not-yet-selected enabled, non-separator values in list order,
leaving the existing selection and its relative order unchanged (for
choice lists without duplicate selectable values, duplicates being a
caller error under the data model). -/
theorem toggleAllOrNone_spec {α : Type} [DecidableEq α]
    (choices : List (Entry α)) (sel : List α)
    (hnd : (selectableValues choices).Nodup) :
    (toggleAllOrNone choices sel = [] ↔
      allSelected choices sel = true) ∧
    (allSelected choices sel = false →
      toggleAllOrNone choices sel =
        sel ++ (selectableValues choices).filter (fun v => v ∉ sel)) := by
  have hflag := addMissing_flag choices sel true
  have hres := addMissing_result choices sel true hnd
  have hmain : allSelected choices sel = false →
      toggleAllOrNone choices sel =
        sel ++ (selectableValues choices).filter (fun v => v ∉ sel) := by
    intro hA
    rw [toggleAllOrNone]
    rw [hflag, hA]
    simpa using hres
  refine ⟨⟨?_, ?_⟩, hmain⟩
  · intro h0
    cases hA : allSelected choices sel with
    | true => rfl
    | false =>
      rw [hmain hA] at h0
      rcases List.append_eq_nil.1 h0 with ⟨hsel, hfil⟩
      have hex : ∃ v ∈ selectableValues choices, v ∉ sel := by
        by_contra hall
        push_neg at hall
        have : allSelected choices sel = true :=
          (allSelected_iff choices sel).2 hall
        rw [this] at hA
        cases hA
      rcases hex with ⟨v, hv, hns⟩
      have : v ∈ (selectableValues choices).filter
          (fun v => v ∉ sel) := by
        simp [List.mem_filter, hv, hns]
      rw [hfil] at this
      cases this
  · intro hA
    rw [toggleAllOrNone, hflag, hA]
    simp

/-- Witness for C2 at a concrete choice list: with value 2 selected and
values 0 and 2 selectable, the handler appends the missing value 0. -/
theorem toggleAllOrNone_spec_witness :
    toggleAllOrNone
        [Entry.choice (Title.plain "a") 0 false,
         Entry.separator "--",
         Entry.choice (Title.plain "b") 1 true,
         Entry.choice (Title.plain "c") 2 false] [2] =
      [2] ++ (selectableValues
        [Entry.choice (Title.plain "a") 0 false,
         Entry.separator "--",
         Entry.choice (Title.plain "b") 1 true,
         Entry.choice (Title.plain "c") 2 false]).filter
          (fun v => v ∉ ([2] : List Nat)) :=
  (toggleAllOrNone_spec
    [Entry.choice (Title.plain "a") 0 false,
     Entry.separator "--",
     Entry.choice (Title.plain "b") 1 true,
     Entry.choice (Title.plain "c") 2 false] [2] (by decide)).2 (by decide)

/-- The skip loop of the cursor-move handlers returns a selectable index
as soon as some iterate of the step function within the fuel bound is
selectable. -/
theorem skipToValid_some {α : Type} (choices : List (Entry α))
    (step : Nat → Nat) :
    ∀ (fuel i : Nat),
      (∃ k ≤ fuel, isSelectionValid choices (step^[k] i) = true) →
      ∃ j, skipToValid choices step i fuel = some j ∧
        isSelectionValid choices j = true := by
  intro fuel
  induction fuel with
  | zero =>
    rintro i ⟨k, hk, hv⟩
    have hk0 : k = 0 := Nat.le_zero.1 hk
    subst hk0
    rw [Function.iterate_zero_apply] at hv
    exact ⟨i, by simp [skipToValid, hv], hv⟩
  | succ fuel ih =>
    rintro i ⟨k, hk, hv⟩
    by_cases h0 : isSelectionValid choices i = true
    · exact ⟨i, by simp [skipToValid, h0], h0⟩
    · cases k with
      | zero =>
        rw [Function.iterate_zero_apply] at hv
        exact absurd hv h0
      | succ k =>
        have hk' : k ≤ fuel := Nat.succ_le_succ_iff.1 hk
        have hv' : isSelectionValid choices (step^[k] (step i)) = true := by
          rwa [← Function.iterate_succ_apply]
        rcases ih (step i) ⟨k, hk', hv'⟩ with ⟨j, hj, hjv⟩
        exact ⟨j, by simp [skipToValid, h0, hj], hjv⟩

/-- Iterating the forward step from an index below n lands on
(i + k) mod n. -/
theorem iterate_selectNext (n i : Nat) (hi : i < n) :
    ∀ k, (selectNext n)^[k] i = (i + k) % n := by
  intro k
  induction k with
  | zero => simp [Nat.mod_eq_of_lt hi]
  | succ k ih =>
    rw [Function.iterate_succ_apply', ih, selectNext, Nat.mod_add_mod,
      Nat.add_assoc]

/-- Iterating the backward step from an index below n lands on
(i + k * (n - 1)) mod n. -/
theorem iterate_selectPrevious (n : Nat) (hn : 0 < n) (i : Nat)
    (hi : i < n) :
    ∀ k, (selectPrevious n)^[k] i = (i + k * (n - 1)) % n := by
  intro k
  induction k with
  | zero => simp [Nat.mod_eq_of_lt hi]
  | succ k ih =>
    rw [Function.iterate_succ_apply', ih, selectPrevious]
    have h1 : ∀ m : Nat, m + n - 1 = m + (n - 1) := fun m => by omega
    rw [h1, Nat.mod_add_mod, add_one_mul, ← Nat.add_assoc]

/-- From any start below n, some forward-step iterate within n steps
reaches any given index below n. -/
theorem selectNext_reaches (n : Nat) (_hn : 0 < n) (i j : Nat)
    (hi : i < n) (hj : j < n) :
    ∃ k ≤ n, (selectNext n)^[k] i = j := by
  by_cases hle : i ≤ j
  · refine ⟨j - i, by omega, ?_⟩
    rw [iterate_selectNext n i hi]
    have h : i + (j - i) = j := by omega
    rw [h, Nat.mod_eq_of_lt hj]
  · refine ⟨j + n - i, by omega, ?_⟩
    rw [iterate_selectNext n i hi]
    have h : i + (j + n - i) = j + n := by omega
    rw [h, Nat.add_mod_right, Nat.mod_eq_of_lt hj]

/-- From any start below n, some backward-step iterate within n steps
reaches any given index below n. -/
theorem selectPrevious_reaches (n : Nat) (hn : 0 < n) (i j : Nat)
    (hi : i < n) (hj : j < n) :
    ∃ k ≤ n, (selectPrevious n)^[k] i = j := by
  by_cases hle : j ≤ i
  · refine ⟨i - j, by omega, ?_⟩
    rw [iterate_selectPrevious n hn i hi]
    have key : i + (i - j) * (n - 1) = j + (i - j) * n := by
      have h2 : (i - j) * n = (i - j) * (n - 1) + (i - j) := by
        rw [← Nat.mul_succ]
        congr 1
        omega
      generalize hQ : (i - j) * n = Q at h2 ⊢
      generalize hP : (i - j) * (n - 1) = P at h2 ⊢
      omega
    rw [key, Nat.add_mul_mod_self_right, Nat.mod_eq_of_lt hj]
  · have ha : 1 ≤ i + n - j := by omega
    refine ⟨i + n - j, by omega, ?_⟩
    rw [iterate_selectPrevious n hn i hi]
    have key : i + (i + n - j) * (n - 1) = j + (i + n - j - 1) * n := by
      have h2 : (i + n - j) * n = (i + n - j) * (n - 1) + (i + n - j) := by
        rw [← Nat.mul_succ]
        congr 1
        omega
      have h3 : (i + n - j) * n = (i + n - j - 1) * n + n := by
        obtain ⟨a, hae⟩ : ∃ a, i + n - j - 1 = a := ⟨_, rfl⟩
        rw [hae]
        have h4 : i + n - j = a + 1 := by omega
        rw [h4, add_one_mul]
      generalize hQ : (i + n - j) * n = Q at h2 h3 ⊢
      generalize hP : (i + n - j) * (n - 1) = P at h2 ⊢
      generalize hR : (i + n - j - 1) * n = R at h3 ⊢
      omega
    rw [key, Nat.add_mul_mod_self_right, Nat.mod_eq_of_lt hj]

/-- A selectable index is within the list bounds. -/
theorem isSelectionValid_lt {α : Type} (choices : List (Entry α))
    (j : Nat) (h : isSelectionValid choices j = true) :
    j < choices.length := by
  by_contra hge
  push_neg at hge
  rw [isSelectionValid, List.getElem?_eq_none hge] at h
  cases h

/-- A list containing a selectable entry has a selectable index. -/
theorem exists_valid_index {α : Type} (choices : List (Entry α))
    (h : ∃ c ∈ choices, c.isSelectable = true) :
    ∃ j, isSelectionValid choices j = true := by
  rcases h with ⟨c, hc, hsel⟩
  rcases List.mem_iff_getElem.1 hc with ⟨j, hj, hget⟩
  refine ⟨j, ?_⟩
  rw [isSelectionValid, List.getElem?_eq_getElem hj, hget]
  exact hsel

/-- C1: for every choice list containing at least one enabled,
non-separator Choice and any starting cursor position within the list,
both cursor-move operations terminate — the skip loop needs at most
`choices.length` iterations of fuel — and afterwards the cursor rests on
an entry that is neither a Separator nor disabled, regardless of the
number of consecutive skippable entries, including full wraparound. -/
theorem moveCursor_lands_on_selectable {α : Type}
    (choices : List (Entry α)) (i : Nat) (hi : i < choices.length)
    (hsel : ∃ c ∈ choices, c.isSelectable = true) :
    (∃ j, moveCursorDownIdx choices i choices.length = some j ∧
      isSelectionValid choices j = true) ∧
    (∃ j, moveCursorUpIdx choices i choices.length = some j ∧
      isSelectionValid choices j = true) := by
  have hn0 : 0 < choices.length := lt_of_le_of_lt (Nat.zero_le i) hi
  rcases exists_valid_index choices hsel with ⟨j, hjv⟩
  have hj : j < choices.length := isSelectionValid_lt choices j hjv
  constructor
  · have hi' : selectNext choices.length i < choices.length :=
      Nat.mod_lt _ hn0
    rcases selectNext_reaches choices.length hn0
      (selectNext choices.length i) j hi' hj with ⟨k, hk, hkj⟩
    exact skipToValid_some choices (selectNext choices.length)
      choices.length (selectNext choices.length i)
      ⟨k, hk, by rw [hkj]; exact hjv⟩
  · have hi' : selectPrevious choices.length i < choices.length :=
      Nat.mod_lt _ hn0
    rcases selectPrevious_reaches choices.length hn0
      (selectPrevious choices.length i) j hi' hj with ⟨k, hk, hkj⟩
    exact skipToValid_some choices (selectPrevious choices.length)
      choices.length (selectPrevious choices.length i)
      ⟨k, hk, by rw [hkj]; exact hjv⟩

/-- Witness for C1 at a concrete list whose only selectable entry is
reached from index 1 only after wrapping past a disabled entry and a
separator in one direction. -/
theorem moveCursor_lands_on_selectable_witness :
    (∃ j, moveCursorDownIdx
        [Entry.separator "--",
         Entry.choice (Title.plain "a") (1 : Nat) false,
         Entry.choice (Title.plain "b") 2 true]
        1
        ([Entry.separator "--",
          Entry.choice (Title.plain "a") (1 : Nat) false,
          Entry.choice (Title.plain "b") 2 true] :
            List (Entry Nat)).length = some j ∧
      isSelectionValid
        [Entry.separator "--",
         Entry.choice (Title.plain "a") (1 : Nat) false,
         Entry.choice (Title.plain "b") 2 true] j = true) ∧
    (∃ j, moveCursorUpIdx
        [Entry.separator "--",
         Entry.choice (Title.plain "a") (1 : Nat) false,
         Entry.choice (Title.plain "b") 2 true]
        1
        ([Entry.separator "--",
          Entry.choice (Title.plain "a") (1 : Nat) false,
          Entry.choice (Title.plain "b") 2 true] :
            List (Entry Nat)).length = some j ∧
      isSelectionValid
        [Entry.separator "--",
         Entry.choice (Title.plain "a") (1 : Nat) false,
         Entry.choice (Title.plain "b") 2 true] j = true) :=
  moveCursor_lands_on_selectable
    [Entry.separator "--",
     Entry.choice (Title.plain "a") (1 : Nat) false,
     Entry.choice (Title.plain "b") 2 true] 1 (by decide) (by decide)

/-- C10: the cursor-move handlers change only the cursor position: the
choice list, selected options, error message, submission flag and
answered flag are all unchanged, and no validation runs on cursor
movement (the only state validation can touch, the error message, is
untouched). -/
theorem moveCursor_frame {α : Type} (s : CheckboxState α) :
    s.moveCursorDown.choices = s.choices ∧
    s.moveCursorDown.selectedOptions = s.selectedOptions ∧
    s.moveCursorDown.errorMessage = s.errorMessage ∧
    s.moveCursorDown.submissionAttempted = s.submissionAttempted ∧
    s.moveCursorDown.isAnswered = s.isAnswered ∧
    s.moveCursorUp.choices = s.choices ∧
    s.moveCursorUp.selectedOptions = s.selectedOptions ∧
    s.moveCursorUp.errorMessage = s.errorMessage ∧
    s.moveCursorUp.submissionAttempted = s.submissionAttempted ∧
    s.moveCursorUp.isAnswered = s.isAnswered :=
  ⟨rfl, rfl, rfl, rfl, rfl, rfl, rfl, rfl, rfl, rfl⟩

/-- For a selection in which every value has a corresponding Choice, the
plain values recovered through the selected Choice objects are exactly
the selection, in order. -/
theorem getSelectedChoicesOf_values {α : Type} [DecidableEq α]
    (choices : List (Entry α)) :
    ∀ selected : List α,
      (∀ v ∈ selected, ∃ c ∈ choices, c.valueOf? = some v) →
      (getSelectedChoicesOf choices selected).filterMap Entry.valueOf? =
        selected := by
  intro selected
  induction selected with
  | nil => intro _; rfl
  | cons v rest ih =>
    intro h
    rcases h v (List.mem_cons_self v rest) with ⟨c, hc, hv⟩
    have hfind :
        (choices.find? (fun c => decide (c.valueOf? = some v))).isSome := by
      rw [List.find?_isSome]
      exact ⟨c, hc, by simp [hv]⟩
    rcases Option.isSome_iff_exists.1 hfind with ⟨c', hc'⟩
    have hpc' := List.find?_some hc'
    have hvc' : c'.valueOf? = some v := of_decide_eq_true hpc'
    have hrest := ih (fun w hw => h w (List.mem_cons_of_mem v hw))
    simp only [getSelectedChoicesOf, List.filterMap_cons, hc'] at hrest ⊢
    simp only [hvc']
    rw [hrest]

/-- For well-formed states the plain selected values are exactly the
selected options, in selection order. -/
theorem getSelectedValues_eq {α : Type} [DecidableEq α]
    (s : CheckboxState α) (hwf : wellFormed s) :
    getSelectedValues s = s.selectedOptions :=
  getSelectedChoicesOf_values s.choices s.selectedOptions hwf

/-- C5: set_answer sets submissionAttempted to true; if the validator
accepts the current selection (mapped to plain values) the question
becomes answered and the emitted result is exactly the selected values at
the time of success; if the validator fails, the question stays
unanswered and the session active (no result), with the failure recorded
as the error message rather than being fatal. -/
theorem setAnswer_spec {α : Type} [DecidableEq α]
    (validate : List α → Verdict) (s : CheckboxState α)
    (hna : s.isAnswered = false) (hwf : wellFormed s) :
    (setAnswer validate s).1.submissionAttempted = true ∧
    ((validate s.selectedOptions).isTrue = true →
      (setAnswer validate s).1.isAnswered = true ∧
      (setAnswer validate s).2 = some s.selectedOptions) ∧
    ((validate s.selectedOptions).isTrue = false →
      (setAnswer validate s).1.isAnswered = false ∧
      (setAnswer validate s).2 = none ∧
      (setAnswer validate s).1.errorMessage =
        some (formattedError (errorTextFor (validate s.selectedOptions)))) := by
  have hgv := getSelectedValues_eq s hwf
  refine ⟨?_, fun hv => ⟨?_, ?_⟩, fun hv => ⟨?_, ?_, ?_⟩⟩
  · simp only [setAnswer, hgv, performValidation]
    split <;> rfl
  · simp [setAnswer, hgv, performValidation, hv]
  · simp [setAnswer, hgv, performValidation, hv]
  · simp [setAnswer, hgv, performValidation, hv, hna]
  · simp [setAnswer, hgv, performValidation, hv]
  · simp [setAnswer, hgv, performValidation, hv]

/-- Witness for C5: both the accepting and the failing validator at a
concrete one-choice state. -/
theorem setAnswer_spec_witness :
    ((setAnswer (fun _ => Verdict.vtrue)
        (CheckboxState.mk [Entry.choice (Title.plain "a") (0 : Nat) false]
          0 [0] none false false)).1.isAnswered = true ∧
      (setAnswer (fun _ => Verdict.vtrue)
        (CheckboxState.mk [Entry.choice (Title.plain "a") (0 : Nat) false]
          0 [0] none false false)).2 = some [0]) ∧
    ((setAnswer (fun _ => Verdict.vstr "need more")
        (CheckboxState.mk [Entry.choice (Title.plain "a") (0 : Nat) false]
          0 [0] none false false)).1.isAnswered = false ∧
      (setAnswer (fun _ => Verdict.vstr "need more")
        (CheckboxState.mk [Entry.choice (Title.plain "a") (0 : Nat) false]
          0 [0] none false false)).2 = none ∧
      (setAnswer (fun _ => Verdict.vstr "need more")
        (CheckboxState.mk [Entry.choice (Title.plain "a") (0 : Nat) false]
          0 [0] none false false)).1.errorMessage =
        some (formattedError (errorTextFor (Verdict.vstr "need more")))) :=
  ⟨(setAnswer_spec (fun _ => Verdict.vtrue)
      (CheckboxState.mk [Entry.choice (Title.plain "a") (0 : Nat) false]
        0 [0] none false false) rfl (by decide)).2.1 (by decide),
   (setAnswer_spec (fun _ => Verdict.vstr "need more")
      (CheckboxState.mk [Entry.choice (Title.plain "a") (0 : Nat) false]
        0 [0] none false false) rfl (by decide)).2.2 (by decide)⟩

/-- C7 counterexample: with exactly one selected choice whose title is a
styled-span sequence, the rendered answer is the concatenated span text
without brackets — not the title wrapped in brackets. -/
theorem answer_summary_counterexample :
    getPromptTokens "?" "q"
        (CheckboxState.mk
          [Entry.choice (Title.spans [("class:title", "x")]) (0 : Nat)
            false] 0 [0] none true true) =
      some (baseTokens "?" "q" ++ [("class:answer", "x")]) ∧
    ("x" : String) ≠ "[x]" := by
  constructor
  · rfl
  · decide

/-- C7 amended: after a successful answer the summary depends only on the
number of selected values: "done" for zero; for exactly one, the single
selected item's display title — wrapped in brackets when the title is
plain text, but the unbracketed concatenation of the span texts when the
title is a styled-span sequence; and "done (N selections)" otherwise. -/
theorem answer_summary_branches {α : Type} [DecidableEq α]
    (qmark message : String) (s : CheckboxState α)
    (ha : s.isAnswered = true) (hwf : wellFormed s) :
    (s.selectedOptions.length = 0 →
      getPromptTokens qmark message s =
        some (baseTokens qmark message ++ [("class:answer", "done")])) ∧
    (s.selectedOptions.length = 1 →
      ∃ c t, (getSelectedChoices s).head? = some c ∧
        c.titleOf? = some t ∧
        getPromptTokens qmark message s =
          some (baseTokens qmark message ++
            [("class:answer", singleAnswerText t)])) ∧
    (2 ≤ s.selectedOptions.length →
      getPromptTokens qmark message s =
        some (baseTokens qmark message ++
          [("class:answer",
            "done (" ++ toString s.selectedOptions.length ++
              " selections)")])) := by
  refine ⟨fun h0 => ?_, fun h1 => ?_, fun h2 => ?_⟩
  · simp [getPromptTokens, ha, h0]
  · rcases List.length_eq_one.1 h1 with ⟨v, hvsel⟩
    have hvmem : v ∈ s.selectedOptions := by
      rw [hvsel]; exact List.mem_cons_self v []
    rcases hwf v hvmem with ⟨c, hc, hv⟩
    have hfind :
        (s.choices.find? (fun c => decide (c.valueOf? = some v))).isSome := by
      rw [List.find?_isSome]
      exact ⟨c, hc, by simp [hv]⟩
    rcases Option.isSome_iff_exists.1 hfind with ⟨c', hc'⟩
    have hpc' := List.find?_some hc'
    have hvc' : c'.valueOf? = some v := of_decide_eq_true hpc'
    have hhead : (getSelectedChoices s).head? = some c' := by
      rw [getSelectedChoices, getSelectedChoicesOf, hvsel]
      simp [List.filterMap_cons, hc']
    obtain ⟨t, ht⟩ : ∃ t, c'.titleOf? = some t := by
      cases c' with
      | separator line => simp [Entry.valueOf?] at hvc'
      | choice t w d => exact ⟨t, rfl⟩
    refine ⟨c', t, hhead, ht, ?_⟩
    simp [getPromptTokens, ha, h1, hhead, ht]
  · have h0 : s.selectedOptions.length ≠ 0 := by omega
    have h1 : s.selectedOptions.length ≠ 1 := by omega
    simp [getPromptTokens, ha, h0, h1]

/-- Witness for C7 at a concrete state with one plain-titled selection. -/
theorem answer_summary_branches_witness :
    ∃ c t, (getSelectedChoices
        (CheckboxState.mk [Entry.choice (Title.plain "a") (0 : Nat) false]
          0 [0] none true true)).head? = some c ∧
      c.titleOf? = some t ∧
      getPromptTokens "?" "pick"
          (CheckboxState.mk [Entry.choice (Title.plain "a") (0 : Nat) false]
            0 [0] none true true) =
        some (baseTokens "?" "pick" ++
          [("class:answer", singleAnswerText t)]) :=
  (answer_summary_branches "?" "pick"
    (CheckboxState.mk [Entry.choice (Title.plain "a") (0 : Nat) false]
      0 [0] none true true) rfl (by decide)).2.1 rfl

end Questionary
